import Mathlib

/-!
Verification of the conversation / message store, AI orchestrator, webhook
signature verification and queue job handler of the llm-chatbot repository,
as a shallow embedding in Lean.  Machine integers of the source are modelled
as Nat, JavaScript Date values as a logical Nat clock, nullable / undefined
values as Option, and thrown exceptions as Except.
-/

namespace LlmChatbot

/-- Message role, from the enum in the messages migration and message.ts. -/
inductive Role where
  | user
  | assistant
  | system
deriving DecidableEq, Repr

/-- A persisted message row (src/database/models/message.ts, Message).
JS Date timestamps are modelled by a Nat logical clock; nullable columns by
Option.  Fields not consulted by any verified operation (platform_data,
ai_model, ai_cost) are kept as optional strings / numbers for fidelity of
shape but carry no logic. -/
structure Msg where
  id : Nat
  conversation_id : Nat
  role : Role
  content : String
  platform_message_id : Option String := none
  token_count : Option Nat := none
  ai_provider : Option String := none
  created_at : Nat
  updated_at : Nat
deriving DecidableEq, Repr

/-- A persisted conversation row (src/database/models/conversation.ts). -/
structure Conv where
  id : Nat
  platform : String
  channel_id : String
  user_id : String
  title : Option String := none
  created_at : Nat
  updated_at : Nat
  last_message_at : Nat
  message_count : Nat
  is_active : Bool
deriving DecidableEq, Repr

/-- The relational store: the two tables, id generators for the uuid
primary keys, and the logical clock standing for now() / new Date(). -/
structure DB where
  convs : List Conv
  msgs : List Msg
  nextConvId : Nat
  nextMsgId : Nat
  now : Nat
deriving DecidableEq, Repr

/-- The empty store. -/
def DB.empty : DB := ⟨[], [], 0, 0, 0⟩

/-- MessageModel.estimateTokenCount: Math.ceil(text.length / 4), one token
per four characters rounded up. -/
def estimateTokenCount (text : String) : Nat :=
  (text.length + 3) / 4

/-- The per-message token cost used by findConversationHistory:
message.token_count || estimateTokenCount(message.content).  The JS || also
falls back to the estimate when token_count is the falsy number 0. -/
def tokenCost (m : Msg) : Nat :=
  match m.token_count with
  | some n => if n = 0 then estimateTokenCount m.content else n
  | none => estimateTokenCount m.content

/-- Ordering used by orderBy created_at desc. -/
def createdDescOrder (a b : Msg) : Prop := b.created_at ≤ a.created_at

instance : DecidableRel createdDescOrder := fun a b =>
  inferInstanceAs (Decidable (b.created_at ≤ a.created_at))

instance : IsTotal Msg createdDescOrder :=
  ⟨fun a b => Nat.le_total b.created_at a.created_at⟩

instance : IsTrans Msg createdDescOrder :=
  ⟨fun _ _ _ hab hbc => Nat.le_trans hbc hab⟩

/-- The rows of the messages table belonging to one conversation
(where conversation_id = cid), in table order. -/
def conversationMessages (db : DB) (cid : Nat) : List Msg :=
  db.msgs.filter (fun m => m.conversation_id == cid)

/-- The db query orderBy created_at desc, modelled as a sort. -/
def orderByCreatedAtDesc (l : List Msg) : List Msg :=
  List.insertionSort createdDescOrder l

/-- The accumulation loop of MessageModel.findConversationHistory: walks the
newest-first list, keeps a running token total, unshifts each kept message
onto the front of the accumulator, and stops once the budget would be
exceeded and at least one message has been kept. -/
def findHistoryLoop (maxTokens : Nat) : List Msg → Nat → List Msg → List Msg
  | [], _, acc => acc
  | m :: rest, total, acc =>
    let c := tokenCost m
    if total + c > maxTokens ∧ acc ≠ [] then acc
    else findHistoryLoop maxTokens rest (total + c) (m :: acc)

/-- MessageModel.findConversationHistory(conversation_id, maxTokens):
fetches the conversation rows newest-first; without a budget (undefined, or
the falsy number 0) reverses to oldest-first and returns everything;
otherwise runs the accumulation loop. -/
def findConversationHistory (db : DB) (cid : Nat) (maxTokens : Option Nat) :
    List Msg :=
  let messages := orderByCreatedAtDesc (conversationMessages db cid)
  match maxTokens with
  | none => messages.reverse
  | some 0 => messages.reverse
  | some (n + 1) => findHistoryLoop (n + 1) messages 0 []

/-- Options bag for message creation (the optional columns of
MessageInsert beyond conversation_id / role / content). -/
structure MsgOptions where
  platform_message_id : Option String := none
  token_count : Option Nat := none
  ai_provider : Option String := none
deriving DecidableEq, Repr

/-- Ordering used by orderBy last_message_at desc on conversations. -/
def lastMessageDescOrder (a b : Conv) : Prop := b.last_message_at ≤ a.last_message_at

instance : DecidableRel lastMessageDescOrder := fun a b =>
  inferInstanceAs (Decidable (b.last_message_at ≤ a.last_message_at))

instance : IsTotal Conv lastMessageDescOrder :=
  ⟨fun a b => Nat.le_total b.last_message_at a.last_message_at⟩

instance : IsTrans Conv lastMessageDescOrder :=
  ⟨fun _ _ _ hab hbc => Nat.le_trans hbc hab⟩

namespace ConversationModel

/-- ConversationModel.create: insert with message_count 0 and
is_active true; created_at / updated_at / last_message_at take the
now() column defaults of the conversations migration. -/
def create (db : DB) (platform channel_id user_id : String)
    (title : Option String) : DB × Conv :=
  let c : Conv :=
    { id := db.nextConvId
      platform := platform
      channel_id := channel_id
      user_id := user_id
      title := title
      created_at := db.now
      updated_at := db.now
      last_message_at := db.now
      message_count := 0
      is_active := true }
  ({ db with convs := db.convs ++ [c], nextConvId := db.nextConvId + 1 }, c)

/-- ConversationModel.findByPlatformAndChannel: where platform and
channel_id, where user_id only when the argument is truthy (the empty
string is falsy in JS and skips the filter), where is_active, order by
last_message_at desc, first. -/
def findByPlatformAndChannel (db : DB) (platform channel_id user_id : String) :
    Option Conv :=
  let found := db.convs.filter (fun c =>
    c.platform == platform && c.channel_id == channel_id
      && (user_id == "" || c.user_id == user_id) && c.is_active)
  (List.insertionSort lastMessageDescOrder found).head?

/-- The row update of incrementMessageCount, applied to every row whose id
matches: increment message_count and refresh last_message_at / updated_at. -/
def bumpConv (cid : Nat) (t : Nat) (c : Conv) : Conv :=
  if c.id == cid then
    { c with message_count := c.message_count + 1
             last_message_at := t
             updated_at := t }
  else c

/-- ConversationModel.incrementMessageCount: increment message_count by 1
and set last_message_at and updated_at to the current time, on every row
whose id matches. -/
def incrementMessageCount (db : DB) (cid : Nat) : DB :=
  { db with convs := db.convs.map (bumpConv cid db.now) }

/-- The row update of deactivate, applied to every row whose id matches:
clear is_active and refresh updated_at. -/
def setInactive (cid : Nat) (t : Nat) (c : Conv) : Conv :=
  if c.id == cid then { c with is_active := false, updated_at := t } else c

/-- ConversationModel.deactivate: set is_active false and refresh
updated_at on the matching row. -/
def deactivate (db : DB) (cid : Nat) : DB :=
  { db with convs := db.convs.map (setInactive cid db.now) }

end ConversationModel

namespace MessageModel

/-- MessageModel.create: insert the row.  The messages migration declares
conversation_id as a non-nullable foreign key into conversations, so the
insert fails (none, store unchanged) when no such conversation exists. -/
def create (db : DB) (cid : Nat) (role : Role) (content : String)
    (opts : MsgOptions) : DB × Option Msg :=
  if db.convs.any (fun c => c.id == cid) then
    let m : Msg :=
      { id := db.nextMsgId
        conversation_id := cid
        role := role
        content := content
        platform_message_id := opts.platform_message_id
        token_count := opts.token_count
        ai_provider := opts.ai_provider
        created_at := db.now
        updated_at := db.now }
    ({ db with msgs := db.msgs ++ [m], nextMsgId := db.nextMsgId + 1 }, some m)
  else (db, none)

/-- MessageModel.deleteOldMessages: select the ids of the keepCount rows of
the conversation that are newest by created_at; when that id list is empty
return 0 without deleting; otherwise delete the rows of the conversation
whose id is not in the list and return the number deleted. -/
def deleteOldMessages (db : DB) (cid : Nat) (keepCount : Nat) : DB × Nat :=
  let keepIds :=
    ((orderByCreatedAtDesc (conversationMessages db cid)).take keepCount).map
      (fun m => m.id)
  if keepIds = [] then (db, 0)
  else
    let isDoomed := fun (m : Msg) =>
      m.conversation_id == cid && !(keepIds.contains m.id)
    let deleted := db.msgs.filter isDoomed
    ({ db with msgs := db.msgs.filter (fun m => !(isDoomed m)) }, deleted.length)

end MessageModel

namespace ConversationService

/-- ConversationService.getOrCreateConversation: look up by the natural key
and create when absent.  A falsy title argument (none, or the empty string
in JS) is not spread into the insert, leaving the column null. -/
def getOrCreateConversation (db : DB) (platform channel_id user_id : String)
    (title : Option String) : DB × Conv :=
  match ConversationModel.findByPlatformAndChannel db platform channel_id user_id with
  | some c => (db, c)
  | none =>
    let storedTitle := match title with
      | some t => if t = "" then none else some t
      | none => none
    ConversationModel.create db platform channel_id user_id storedTitle

/-- ConversationService.addMessage: create the message, then increment the
message count of the conversation.  When the insert fails (missing
conversation) the thrown failure propagates and the increment never runs. -/
def addMessage (db : DB) (cid : Nat) (role : Role) (content : String)
    (opts : MsgOptions) : DB × Option Msg :=
  match MessageModel.create db cid role content opts with
  | (db1, some m) => (ConversationModel.incrementMessageCount db1 cid, some m)
  | (_, none) => (db, none)

/-- ConversationService.addUserMessage: resolve the conversation then add a
user-role message to it. -/
def addUserMessage (db : DB) (platform channel_id user_id content : String)
    (platform_message_id : Option String) : DB × Conv :=
  let (db1, conv) := getOrCreateConversation db platform channel_id user_id none
  let (db2, _) := addMessage db1 conv.id Role.user content
    { platform_message_id := platform_message_id }
  (db2, conv)

/-- ConversationService.addAssistantMessage. -/
def addAssistantMessage (db : DB) (cid : Nat) (content : String)
    (opts : MsgOptions) : DB × Option Msg :=
  addMessage db cid Role.assistant content opts

/-- ConversationService.cleanupOldMessages. -/
def cleanupOldMessages (db : DB) (cid : Nat) (keepCount : Nat) : DB × Nat :=
  MessageModel.deleteOldMessages db cid keepCount

/-- ConversationService.deactivateConversation. -/
def deactivateConversation (db : DB) (cid : Nat) : DB :=
  ConversationModel.deactivate db cid

end ConversationService

/-- One store operation of the conversation service, for stating the
message_count / last_message_at invariant over operation sequences. -/
inductive StoreOp where
  | addMessage (cid : Nat) (role : Role) (content : String) (opts : MsgOptions)
  | addUserMessage (platform channel_id user_id content : String)
      (platform_message_id : Option String)
  | addAssistantMessage (cid : Nat) (content : String) (opts : MsgOptions)
  | cleanupOldMessages (cid : Nat) (keepCount : Nat)
  | deactivateConversation (cid : Nat)
deriving DecidableEq, Repr

/-- Run one operation against the store; the logical clock advances after
each operation, so rows written by later operations carry later times. -/
def applyOp (db : DB) (op : StoreOp) : DB :=
  let db1 := match op with
    | StoreOp.addMessage cid role content opts =>
      (ConversationService.addMessage db cid role content opts).1
    | StoreOp.addUserMessage p ch u content pmid =>
      (ConversationService.addUserMessage db p ch u content pmid).1
    | StoreOp.addAssistantMessage cid content opts =>
      (ConversationService.addAssistantMessage db cid content opts).1
    | StoreOp.cleanupOldMessages cid keep =>
      (ConversationService.cleanupOldMessages db cid keep).1
    | StoreOp.deactivateConversation cid =>
      (ConversationService.deactivateConversation db cid)
  { db1 with now := db1.now + 1 }

/-- Run a sequence of store operations from a starting store. -/
def runOps (db : DB) (ops : List StoreOp) : DB :=
  ops.foldl applyOp db

/-! ## AI service (src/services/ai-service.ts) -/

/-- A chat message handed to a provider. -/
structure ChatMessage where
  role : Role
  content : String
deriving DecidableEq, Repr

/-- Token usage reported by a provider. -/
structure Usage where
  promptTokens : Nat
  completionTokens : Nat
  totalTokens : Nat
deriving DecidableEq, Repr

/-- A provider chat result. -/
structure AIResponse where
  content : String
  usage : Option Usage := none
deriving DecidableEq, Repr

/-- A provider chat call; a thrown provider failure is an error value. -/
def Provider := List ChatMessage → Except String AIResponse

/-- The fixed system instruction prepended by AIService.processMessage. -/
def systemPrompt : String :=
  "You are a helpful AI assistant. Respond concisely and helpfully to user messages."

/-- The message sequence assembled by AIService.processMessage: system
instruction, then the supplied history, then the new user message. -/
def buildMessages (userMessage : String) (history : List ChatMessage) :
    List ChatMessage :=
  ⟨Role.system, systemPrompt⟩ :: history ++ [⟨Role.user, userMessage⟩]

/-- AIService.processMessage: try the primary provider; on failure try the
fallback when configured, raising the aggregate failure when the fallback
also fails; with no fallback the primary failure is rethrown unchanged. -/
def AIService.processMessage (primary : Provider) (fallback : Option Provider)
    (userMessage : String) (history : List ChatMessage) :
    Except String AIResponse :=
  let messages := buildMessages userMessage history
  match primary messages with
  | Except.ok r => Except.ok r
  | Except.error e =>
    match fallback with
    | some f =>
      match f messages with
      | Except.ok r => Except.ok r
      | Except.error _ => Except.error "All AI providers failed"
    | none => Except.error e

/-! ## Webhook signature verification (src/utils/webhook-verification.ts)

The HMAC-SHA256 hex digest computed by node crypto is abstracted as a
function argument hmacHex taking the key and the input.  A real digest is
always a string of 64 hex characters; theorems that depend on that carry it
as a hypothesis or instantiate a concrete digest of that shape. -/

/-- The exception node crypto timingSafeEqual raises when the two buffers
have different byte lengths. -/
inductive CryptoError where
  | timingSafeEqualLength
deriving DecidableEq, Repr

/-- Hex digit test for the Buffer.from(s, hex) decoder. -/
def isHexDigitChar (c : Char) : Bool :=
  c.isDigit || (97 ≤ c.toNat && c.toNat ≤ 102) || (65 ≤ c.toNat && c.toNat ≤ 70)

/-- Value of a hex digit. -/
def hexDigitVal (c : Char) : Nat :=
  if c.isDigit then c.toNat - 48
  else if 97 ≤ c.toNat then c.toNat - 87
  else c.toNat - 55

/-- Buffer.from(s, hex): decode leading hex pairs into bytes, silently
truncating at the first incomplete or invalid pair. -/
def hexDecodeChars : List Char → List Nat
  | a :: b :: rest =>
    if isHexDigitChar a && isHexDigitChar b then
      (16 * hexDigitVal a + hexDigitVal b) :: hexDecodeChars rest
    else []
  | _ => []

/-- Hex decoding of a string into a byte list. -/
def hexDecode (s : String) : List Nat := hexDecodeChars s.data

/-- crypto.timingSafeEqual on byte lists: throws when the lengths differ,
otherwise reports byte equality (the constant-time aspect has no
observable value semantics). -/
def timingSafeEqual (a b : List Nat) : Except CryptoError Bool :=
  if a.length ≠ b.length then Except.error CryptoError.timingSafeEqualLength
  else Except.ok (a == b)

/-- crypto.timingSafeEqual applied to Buffer.from of two strings (utf8):
throws when the utf8 byte lengths differ, otherwise compares. -/
def timingSafeEqualUtf8 (a b : String) : Except CryptoError Bool :=
  if a.utf8ByteSize ≠ b.utf8ByteSize then
    Except.error CryptoError.timingSafeEqualLength
  else Except.ok (a == b)

/-- verifyTelegramBotTokenSignature(body, receivedHash): reject when the
bot token is unconfigured (unset or empty, both falsy) or when no hash was
provided; otherwise compare the hex-decoded received hash with the
hex-decoded expected digest, the try/catch turning any comparison
exception into a false return. -/
def verifyTelegramBotTokenSignature (hmacHex : String → String → String)
    (botToken : Option String) (body : String)
    (receivedHash : Option String) : Bool :=
  match botToken with
  | none => false
  | some tok =>
    if tok = "" then false
    else
      match receivedHash with
      | none => false
      | some h =>
        if h = "" then false
        else
          let expectedHash := hmacHex tok body
          match timingSafeEqual (hexDecode h) (hexDecode expectedHash) with
          | Except.ok b => b
          | Except.error _ => false

/-- validateTelegramUpdate(body): parse the JSON body and require a numeric
update_id field.  JSON.parse is abstracted as parseJson; a parse failure is
none and is caught, returning false. -/
structure TgUpdate where
  update_id : Option Int
  messageText : Option String := none
  chatId : Option Int := none

def validateTelegramUpdate (parseJson : String → Option TgUpdate)
    (body : String) : Bool :=
  match parseJson body with
  | none => false
  | some u => u.update_id.isSome

/-- verifySlackSignature(body, timestamp, signature): reject when the
signing secret is unconfigured; reject when the timestamp is more than
300 seconds from the current time; otherwise compare the signature header
against v0= followed by the hex digest of the base string
v0:TIMESTAMP:BODY.  The final comparison is not wrapped in a try/catch, so
a byte-length mismatch escapes as an exception.  Timestamps are modelled as
integers, covering every numeric timestamp header. -/
def verifySlackSignature (hmacHex : String → String → String)
    (signingSecret : Option String) (now : Int) (body : String)
    (timestamp : Int) (signature : String) : Except CryptoError Bool :=
  match signingSecret with
  | none => Except.ok false
  | some secret =>
    if secret = "" then Except.ok false
    else if 300 < (now - timestamp).natAbs then Except.ok false
    else
      let sigBasestring := "v0:" ++ toString timestamp ++ ":" ++ body
      let expectedSignature := "v0=" ++ hmacHex secret sigBasestring
      timingSafeEqualUtf8 signature expectedSignature

/-! ## Telegram webhook endpoint (src/routes/webhooks.ts, POST /telegram)
together with the raw body capture middleware
(src/middleware/raw-body-capture.ts) that runs ahead of it and parses the
JSON body.  The Zod TelegramUpdateSchema lives in src/schemas/webhooks,
whose source is not available; its accept / reject verdict is abstracted as
the zodAccepts argument. -/

/-- Telegram-related configuration read from the environment. -/
structure TgConfig where
  webhookSecret : Option String
  botToken : Option String

/-- An inbound webhook request as the middleware and route observe it. -/
structure TgRequest where
  contentTypeJson : Bool
  rawBody : String
  secretTokenHeader : Option String
  signatureHeader : Option String

/-- The truthiness of data.trim() in the middleware: the raw body holds at
least one non-whitespace character. -/
def hasNonWhitespace (s : String) : Bool :=
  s.data.any (fun c => !c.isWhitespace)

/-- HTTP status returned for an inbound Telegram webhook request: the
middleware rejects a missing json content type and a malformed JSON body
with 400; the route then rejects an empty raw body with 400, a failed
secret-token or HMAC check with 401, a failed structural check with 401,
and a failed schema parse with 400, acknowledging everything else 200. -/
def telegramEndpointStatus (hmacHex : String → String → String)
    (parseJson : String → Option TgUpdate) (zodAccepts : TgUpdate → Bool)
    (cfg : TgConfig) (req : TgRequest) : Nat :=
  if !req.contentTypeJson then 400
  else if hasNonWhitespace req.rawBody ∧ (parseJson req.rawBody).isNone then 400
  else if req.rawBody = "" then 400
  else
    let authorized :=
      match cfg.webhookSecret with
      | some s =>
        if s ≠ "" then decide (req.secretTokenHeader = some s)
        else verifyTelegramBotTokenSignature hmacHex cfg.botToken
          req.rawBody req.signatureHeader
      | none => verifyTelegramBotTokenSignature hmacHex cfg.botToken
          req.rawBody req.signatureHeader
    if !authorized then 401
    else if !(validateTelegramUpdate parseJson req.rawBody) then 401
    else
      match parseJson req.rawBody with
      | some u => if zodAccepts u then 200 else 400
      | none => 400

/-! ## Queue job handler (src/queue/message-processor.ts, processMessage)

Each external call of the handler is an oracle giving that call's outcome;
the handler composes them exactly as the try/catch of the source does.  The
sends field records every sendPlatformResponse attempt as a
platform / channel / text triple. -/

/-- The job payload fields the handler reads. -/
structure MessageJobData where
  platform : String
  channelId : String
  text : String
  messageId : Option String := none
deriving DecidableEq, Repr

/-- Outcomes of the external calls made by one run of the handler. -/
structure JobEffects where
  addUserMessage : Except String Nat
  getHistory : Except String (List ChatMessage)
  ai : Except String AIResponse
  addAssistant : Except String Unit
  sendResponse : Except String Unit
  sendApology : Except String Unit

/-- The fixed apology string dispatched by the catch block of the handler. -/
def apologyText : String :=
  "Sorry, I encountered an error processing your message. Please try again later."

/-- Observable outcome of one handler run: the returned or thrown value,
every dispatch attempted, and whether a failed apology send was logged. -/
structure HandlerRun where
  result : Except String String
  sends : List (String × String × String)
  apologyLogged : Bool
deriving Repr

/-- The catch block: attempt the apology dispatch, log (never rethrow) its
own failure, then rethrow the original error. -/
def failPath (eff : JobEffects) (job : MessageJobData)
    (prior : List (String × String × String)) (e : String) : HandlerRun :=
  let attempts := prior ++ [(job.platform, job.channelId, apologyText)]
  match eff.sendApology with
  | Except.ok _ => ⟨Except.error e, attempts, false⟩
  | Except.error _ => ⟨Except.error e, attempts, true⟩

/-- processMessage: persist the user message, fetch history, invoke the AI
service, persist the response, dispatch it; any failure diverts to the
catch block. -/
def runProcessMessage (eff : JobEffects) (job : MessageJobData) : HandlerRun :=
  match eff.addUserMessage with
  | Except.error e => failPath eff job [] e
  | Except.ok _ =>
    match eff.getHistory with
    | Except.error e => failPath eff job [] e
    | Except.ok _ =>
      match eff.ai with
      | Except.error e => failPath eff job [] e
      | Except.ok resp =>
        match eff.addAssistant with
        | Except.error e => failPath eff job [] e
        | Except.ok _ =>
          match eff.sendResponse with
          | Except.error e =>
            failPath eff job [(job.platform, job.channelId, resp.content)] e
          | Except.ok _ =>
            ⟨Except.ok resp.content,
              [(job.platform, job.channelId, resp.content)], false⟩

/-- The error of the earliest failing handler step, if any. -/
def firstStepError (eff : JobEffects) : Option String :=
  match eff.addUserMessage with
  | Except.error e => some e
  | Except.ok _ =>
    match eff.getHistory with
    | Except.error e => some e
    | Except.ok _ =>
      match eff.ai with
      | Except.error e => some e
      | Except.ok _ =>
        match eff.addAssistant with
        | Except.error e => some e
        | Except.ok _ =>
          match eff.sendResponse with
          | Except.error e => some e
          | Except.ok _ => none

/-! ## Claim C2: orchestrator failover -/

/-- C2, counterexample: with a failing primary and no configured fallback,
processMessage rethrows the primary failure unchanged instead of the
single terminal failure named by the claim, so the claim as stated is
false. -/
theorem processMessage_noFallback_cex :
    AIService.processMessage (fun _ => Except.error "Primary provider down")
        none "hello" [] = Except.error "Primary provider down" ∧
      "Primary provider down" ≠ "All AI providers failed" :=
  ⟨rfl, by decide⟩

/-- C2 (amended): if the primary call fails, processMessage returns the
fallback result when a configured fallback succeeds, raises the aggregate
failure All AI providers failed when the configured fallback also fails,
and with no fallback configured rethrows the primary failure unchanged. -/
theorem processMessage_failover_spec (primary : Provider)
    (fallback : Option Provider) (u : String) (hist : List ChatMessage)
    (e : String) (hp : primary (buildMessages u hist) = Except.error e) :
    (∀ f r, fallback = some f → f (buildMessages u hist) = Except.ok r →
      AIService.processMessage primary fallback u hist = Except.ok r) ∧
    (∀ f e2, fallback = some f → f (buildMessages u hist) = Except.error e2 →
      AIService.processMessage primary fallback u hist =
        Except.error "All AI providers failed") ∧
    (fallback = none →
      AIService.processMessage primary fallback u hist = Except.error e) := by
  refine ⟨?_, ?_, ?_⟩
  · intro f r hf hr
    subst hf
    simp [AIService.processMessage, hp, hr]
  · intro f e2 hf hr
    subst hf
    simp [AIService.processMessage, hp, hr]
  · intro hf
    subst hf
    simp [AIService.processMessage, hp]

/-- Witness for the failover theorem at a concrete failing primary and a
concrete succeeding fallback. -/
theorem processMessage_failover_spec_witness :
    (((fun _ => Except.error "down") : Provider) (buildMessages "hi" []) =
      Except.error "down") ∧
    AIService.processMessage (fun _ => Except.error "down")
      (some (fun _ => Except.ok ⟨"from fallback", none⟩)) "hi" [] =
      Except.ok ⟨"from fallback", none⟩ :=
  ⟨rfl,
    (processMessage_failover_spec (fun _ => Except.error "down")
      (some (fun _ => Except.ok ⟨"from fallback", none⟩)) "hi" [] "down"
      rfl).1 _ ⟨"from fallback", none⟩ rfl rfl⟩

/-! ## Claim C5: Slack replay-window rejection -/

/-- C5: a timestamp more than 300 seconds from the current time makes
verifySlackSignature return false, before any signature comparison, for
every body and every signature, including the correct one. -/
theorem verifySlackSignature_stale_timestamp
    (hmacHex : String → String → String) (secret : Option String)
    (now t : Int) (body sig : String) (h : 300 < (now - t).natAbs) :
    verifySlackSignature hmacHex secret now body t sig = Except.ok false := by
  cases secret with
  | none => rfl
  | some s =>
    by_cases hs : s = "" <;> simp [verifySlackSignature, hs, h]

/-- Witness: a 301-second-old timestamp is rejected even though the
supplied signature equals v0= followed by the digest. -/
theorem verifySlackSignature_stale_timestamp_witness :
    300 < ((1000 : Int) - 699).natAbs ∧
    verifySlackSignature (fun _ _ => "d") (some "secret") 1000 "b" 699 "v0=d"
      = Except.ok false :=
  ⟨by decide,
    verifySlackSignature_stale_timestamp (fun _ _ => "d") (some "secret")
      1000 699 "b" "v0=d" (by decide)⟩

/-! ## Claim C8: job handler failure path -/

/-- The result of the catch block is always the original error. -/
theorem failPath_result (eff : JobEffects) (job : MessageJobData)
    (prior : List (String × String × String)) (e : String) :
    (failPath eff job prior e).result = Except.error e := by
  unfold failPath
  cases eff.sendApology <;> rfl

/-- The catch block always appends exactly one apology dispatch attempt. -/
theorem failPath_sends (eff : JobEffects) (job : MessageJobData)
    (prior : List (String × String × String)) (e : String) :
    (failPath eff job prior e).sends =
      prior ++ [(job.platform, job.channelId, apologyText)] := by
  unfold failPath
  cases eff.sendApology <;> rfl

/-- C8: whenever a handler step fails, the run rethrows that original
error, an apology dispatch to the job platform and channel was attempted,
and the outcome of the apology dispatch itself never changes the rethrown
error. -/
theorem processMessage_handler_failure_spec (eff : JobEffects)
    (job : MessageJobData) (e : String) (h : firstStepError eff = some e) :
    (runProcessMessage eff job).result = Except.error e ∧
    (job.platform, job.channelId, apologyText) ∈ (runProcessMessage eff job).sends ∧
    (∀ x, (runProcessMessage { eff with sendApology := x } job).result =
      Except.error e) := by
  obtain ⟨a, g, ai, aa, sr, sa⟩ := eff
  cases a <;> cases g <;> cases ai <;> cases aa <;> cases sr <;>
    simp_all [firstStepError, runProcessMessage, failPath_result, failPath_sends]

/-- Witness: an AI-step failure is rethrown after the apology attempt. -/
theorem processMessage_handler_failure_spec_witness :
    firstStepError ⟨Except.ok 1, Except.ok [], Except.error "AI down",
      Except.ok (), Except.ok (), Except.ok ()⟩ = some "AI down" ∧
    (runProcessMessage ⟨Except.ok 1, Except.ok [], Except.error "AI down",
      Except.ok (), Except.ok (), Except.ok ()⟩
      ⟨"telegram", "42", "hello", none⟩).result = Except.error "AI down" :=
  ⟨rfl,
    (processMessage_handler_failure_spec
      ⟨Except.ok 1, Except.ok [], Except.error "AI down", Except.ok (),
        Except.ok (), Except.ok ()⟩
      ⟨"telegram", "42", "hello", none⟩ "AI down" rfl).1⟩

/-! ## Claim C6: rejection by boolean, no exceptions -/

/-- C6, counterexample: with the secret configured and a fresh timestamp,
a one-byte signature makes verifySlackSignature raise the timingSafeEqual
length exception instead of returning false: the byte length 1 differs
from the 67 bytes of v0= followed by the 64-character hex digest. -/
theorem verifySlackSignature_throws_cex :
    (String.mk (List.replicate 64 'a')).length = 64 ∧
    verifySlackSignature (fun _ _ => String.mk (List.replicate 64 'a'))
        (some "secret") 1000 "body" 1000 "x" =
      Except.error CryptoError.timingSafeEqualLength :=
  ⟨by decide, rfl⟩

/-- C6 (amended): the Telegram verifier never throws — even a received
hash whose decoded byte length differs from the digest length, which makes
the inner comparison throw, is caught and reported as false — while the
Slack verifier avoids the exception only when the supplied signature has
the same byte length as the expected v0= digest string. -/
theorem verifier_no_throw_spec (hmacHex : String → String → String)
    (tok body hash secret : String) (now t : Int) (sbody sig : String)
    (hsec : secret ≠ "")
    (hlen : sig.utf8ByteSize =
      ("v0=" ++ hmacHex secret ("v0:" ++ toString t ++ ":" ++ sbody)).utf8ByteSize) :
    ((hexDecode hash).length ≠ (hexDecode (hmacHex tok body)).length →
      verifyTelegramBotTokenSignature hmacHex (some tok) body (some hash) = false) ∧
    (∃ b, verifySlackSignature hmacHex (some secret) now sbody t sig =
      Except.ok b) := by
  constructor
  · intro hne
    by_cases ht : tok = ""
    · simp [verifyTelegramBotTokenSignature, ht]
    · by_cases hh : hash = ""
      · simp [verifyTelegramBotTokenSignature, ht, hh]
      · simp [verifyTelegramBotTokenSignature, ht, hh, timingSafeEqual, hne]
  · by_cases hstale : 300 < (now - t).natAbs
    · exact ⟨false, by simp [verifySlackSignature, hsec, hstale]⟩
    · refine ⟨sig == ("v0=" ++ hmacHex secret ("v0:" ++ toString t ++ ":" ++ sbody)), ?_⟩
      simp [verifySlackSignature, hsec, hstale, timingSafeEqualUtf8, hlen]

/-- Witness for the no-throw theorem: a concrete 64-character digest, a
hash of a different decoded length (swallowed to false), and a same-length
Slack signature. -/
theorem verifier_no_throw_spec_witness :
    ("s" : String) ≠ "" ∧
    ("v0=" ++ "0123456789abcdef0123456789abcdef0123456789abcdef0123456789abcdef").utf8ByteSize =
      ("v0=" ++ (fun (_ _ : String) =>
        "0123456789abcdef0123456789abcdef0123456789abcdef0123456789abcdef") "s"
          ("v0:" ++ toString (0 : Int) ++ ":" ++ "b")).utf8ByteSize ∧
    verifyTelegramBotTokenSignature
      (fun _ _ => "0123456789abcdef0123456789abcdef0123456789abcdef0123456789abcdef")
      (some "t") "b" (some "ff") = false :=
  ⟨by decide, rfl,
    (verifier_no_throw_spec
      (fun _ _ => "0123456789abcdef0123456789abcdef0123456789abcdef0123456789abcdef")
      "t" "b" "ff" "s" 0 0 "b"
      ("v0=" ++ "0123456789abcdef0123456789abcdef0123456789abcdef0123456789abcdef")
      (by decide) rfl).1 (by decide)⟩

/-! ## Claim C7: unsigned Telegram webhook with no secret configured -/

/-- C7, counterexample: with no webhook secret configured and no signature
header, a well-formed update is answered 401, not accepted: the current
verifier rejects a missing hash, leaving the warning-logged acceptance
branch of the router unreachable. -/
theorem telegram_unsigned_accepted_cex :
    telegramEndpointStatus (fun _ _ => "d")
      (fun s => if s = "u1" then some ⟨some 1, none, none⟩ else none)
      (fun _ => true) ⟨none, some "tok"⟩ ⟨true, "u1", none, none⟩ = 401 ∧
    (401 : Nat) ≠ 200 :=
  ⟨rfl, by decide⟩

/-- C7 (amended): when no webhook secret token is configured and the
request carries no signature header, verifyTelegramBotTokenSignature
returns false and the endpoint responds 401 unauthorized, for every bot
token configuration and every well-formed body. -/
theorem telegram_unsigned_rejected (hmacHex : String → String → String)
    (parseJson : String → Option TgUpdate) (zodAccepts : TgUpdate → Bool)
    (botToken : Option String) (req : TgRequest)
    (hct : req.contentTypeJson = true) (hsig : req.signatureHeader = none)
    (hbody : req.rawBody ≠ "") (hjson : (parseJson req.rawBody).isSome) :
    verifyTelegramBotTokenSignature hmacHex botToken req.rawBody
      req.signatureHeader = false ∧
    telegramEndpointStatus hmacHex parseJson zodAccepts ⟨none, botToken⟩ req
      = 401 := by
  have hv : verifyTelegramBotTokenSignature hmacHex botToken req.rawBody
      req.signatureHeader = false := by
    rw [hsig]
    cases botToken with
    | none => rfl
    | some tok => by_cases ht : tok = "" <;>
        simp [verifyTelegramBotTokenSignature, ht]
  refine ⟨hv, ?_⟩
  have hnn : (parseJson req.rawBody).isNone = false := by
    cases hpj : parseJson req.rawBody with
    | none => rw [hpj] at hjson; simp at hjson
    | some u => simp
  simp [telegramEndpointStatus, hct, hbody, hnn, hv]

/-- Witness: concrete unsigned request with no secret configured. -/
theorem telegram_unsigned_rejected_witness :
    (( ⟨true, "u2", none, none⟩ : TgRequest).contentTypeJson = true) ∧
    telegramEndpointStatus (fun _ _ => "d")
      (fun s => if s = "u2" then some ⟨some 7, none, none⟩ else none)
      (fun _ => true) ⟨none, some "tok"⟩ ⟨true, "u2", none, none⟩ = 401 :=
  ⟨rfl,
    (telegram_unsigned_rejected (fun _ _ => "d")
      (fun s => if s = "u2" then some ⟨some 7, none, none⟩ else none)
      (fun _ => true) (some "tok") ⟨true, "u2", none, none⟩
      rfl rfl (by decide) (by decide)).2⟩

/-! ## Claim C9: status codes of the Telegram endpoint -/

/-- C9, counterexample: a well-formed JSON body that fails the numeric
update_id structural check is answered 401 (the code path logs a data
structure failure but sends unauthorized), not the 400 the claim
reserves for validation failures. -/
theorem telegram_structural_401_cex :
    telegramEndpointStatus (fun _ _ => "d")
      (fun s => if s = "nn" then some ⟨none, none, none⟩ else none)
      (fun _ => true) ⟨some "s", none⟩ ⟨true, "nn", some "s", none⟩ = 401 ∧
    (401 : Nat) ≠ 400 :=
  ⟨rfl, by decide⟩

/-- C9 (amended): malformed JSON is answered 400 (by the raw-body capture
middleware), but a well-formed body failing the numeric update_id
structural check is answered 401 even when authentication succeeded, so
401 is not reserved to authentication failures. -/
theorem telegram_status_spec (hmacHex : String → String → String)
    (parseJson : String → Option TgUpdate) (zodAccepts : TgUpdate → Bool)
    (cfg : TgConfig) (req : TgRequest)
    (hct : req.contentTypeJson = true) :
    (hasNonWhitespace req.rawBody = true → parseJson req.rawBody = none →
      telegramEndpointStatus hmacHex parseJson zodAccepts cfg req = 400) ∧
    (∀ s u, cfg.webhookSecret = some s → s ≠ "" →
      req.secretTokenHeader = some s → parseJson req.rawBody = some u →
      u.update_id = none → req.rawBody ≠ "" →
      telegramEndpointStatus hmacHex parseJson zodAccepts cfg req = 401) := by
  constructor
  · intro h1 h2
    simp [telegramEndpointStatus, hct, h1, h2]
  · intro s u hcfg hs hst hp hu hb
    simp [telegramEndpointStatus, hct, hcfg, hs, hst, hp, hu, hb,
      validateTelegramUpdate]

/-- Witness: concrete malformed-JSON request answered 400, via the first
part of the status theorem. -/
theorem telegram_status_spec_witness :
    hasNonWhitespace "oops" = true ∧
    telegramEndpointStatus (fun _ _ => "d") (fun _ => none) (fun _ => true)
      ⟨some "s", none⟩ ⟨true, "oops", some "s", none⟩ = 400 :=
  ⟨rfl,
    (telegram_status_spec (fun _ _ => "d") (fun _ => none) (fun _ => true)
      ⟨some "s", none⟩ ⟨true, "oops", some "s", none⟩ rfl).1 rfl rfl⟩

/-! ## Claim C1: token-bounded history windowing -/

/-- Accumulator-free form of the windowing loop: the started flag plays
the role of the accumulator being nonempty. -/
def collectHistory (mt : Nat) : Bool → Nat → List Msg → List Msg
  | _, _, [] => []
  | started, total, m :: rest =>
    if total + tokenCost m > mt ∧ started = true then []
    else m :: collectHistory mt true (total + tokenCost m) rest

/-- The source loop equals the accumulator-free form. -/
theorem findHistoryLoop_eq_collect (mt : Nat) :
    ∀ (l : List Msg) (total : Nat) (acc : List Msg),
      findHistoryLoop mt l total acc =
        (collectHistory mt (!acc.isEmpty) total l).reverse ++ acc := by
  intro l
  induction l with
  | nil => intro total acc; simp [findHistoryLoop, collectHistory]
  | cons m rest ih =>
    intro total acc
    simp only [findHistoryLoop, collectHistory]
    by_cases hc : total + tokenCost m > mt ∧ acc ≠ []
    · have hb : (!acc.isEmpty) = true := by cases acc <;> simp_all
      rw [if_pos hc, if_pos ⟨hc.1, hb⟩]
      simp
    · have hsplit : ¬ (total + tokenCost m > mt ∧ (!acc.isEmpty) = true) := by
        intro h
        exact hc ⟨h.1, by cases acc <;> simp_all⟩
      rw [if_neg hc, if_neg hsplit, ih]
      have hme : (!(m :: acc).isEmpty) = true := rfl
      rw [hme]
      simp

/-- The accumulator-free loop returns a prefix of its input. -/
theorem collectHistory_take (mt : Nat) :
    ∀ (l : List Msg) (st : Bool) (total : Nat),
      ∃ k, collectHistory mt st total l = l.take k := by
  intro l
  induction l with
  | nil => exact fun _ _ => ⟨0, rfl⟩
  | cons m rest ih =>
    intro st total
    simp only [collectHistory]
    by_cases hc : total + tokenCost m > mt ∧ st = true
    · exact ⟨0, by rw [if_pos hc]; rfl⟩
    · obtain ⟨k, hk⟩ := ih true (total + tokenCost m)
      exact ⟨k + 1, by rw [if_neg hc, hk]; rfl⟩

/-- Once the running total exceeds the budget, nothing further is kept. -/
theorem collectHistory_stop (mt : Nat) (l : List Msg) (total : Nat)
    (h : mt < total) : collectHistory mt true total l = [] := by
  cases l with
  | nil => rfl
  | cons m rest =>
    simp only [collectHistory]
    rw [if_pos ⟨by omega, by trivial⟩]

/-- Budget bound of the started loop: starting below the budget, the
running total stays below it. -/
theorem collectHistory_budget (mt : Nat) :
    ∀ (l : List Msg) (total : Nat), total ≤ mt →
      total + ((collectHistory mt true total l).map tokenCost).sum ≤ mt := by
  intro l
  induction l with
  | nil => intro total h; simpa using h
  | cons m rest ih =>
    intro total h
    simp only [collectHistory]
    by_cases hgt : total + tokenCost m > mt
    · rw [if_pos ⟨hgt, by trivial⟩]; simpa using h
    · rw [if_neg (fun hh => hgt hh.1)]
      have hrec := ih (total + tokenCost m) (by omega)
      simp only [List.map_cons, List.sum_cons]
      omega

/-- The first scanned message is always kept. -/
theorem collectHistory_start (mt : Nat) (total : Nat) (m : Msg)
    (rest : List Msg) :
    collectHistory mt false total (m :: rest) =
      m :: collectHistory mt true (total + tokenCost m) rest := by
  simp only [collectHistory]
  rw [if_neg (fun h => Bool.false_ne_true h.2)]

/-- C1, counterexample: a token budget of 0 is falsy in JS, so the whole
history is returned unfiltered; with two one-token messages the sum of the
returned costs minus the last message is 1, exceeding the budget 0, so the
claim fails for the budget 0. -/
theorem findConversationHistory_zero_budget_cex :
    findConversationHistory
        ⟨[], [⟨0, 0, Role.user, "abcd", none, none, none, 0, 0⟩,
              ⟨1, 0, Role.assistant, "abcd", none, none, none, 1, 1⟩], 0, 2, 2⟩
        0 (some 0) =
      [⟨0, 0, Role.user, "abcd", none, none, none, 0, 0⟩,
       ⟨1, 0, Role.assistant, "abcd", none, none, none, 1, 1⟩] ∧
    ¬ (((findConversationHistory
        ⟨[], [⟨0, 0, Role.user, "abcd", none, none, none, 0, 0⟩,
              ⟨1, 0, Role.assistant, "abcd", none, none, none, 1, 1⟩], 0, 2, 2⟩
        0 (some 0)).dropLast.map tokenCost).sum ≤ 0) := by
  constructor
  · rfl
  · decide

/-- C1 (amended): for every positive token budget, the returned window is
an oldest-end truncation of the full oldest-first list (a suffix, never
reordered), is in non-decreasing created_at order, its cost sum without
the last (newest) returned message stays within the budget, and it is
nonempty whenever the conversation has messages. -/
theorem findConversationHistory_budget_spec (db : DB) (cid : Nat) (n : Nat)
    (hn : 0 < n) :
    (∃ pre, (orderByCreatedAtDesc (conversationMessages db cid)).reverse =
      pre ++ findConversationHistory db cid (some n)) ∧
    (findConversationHistory db cid (some n)).Pairwise
      (fun a b => a.created_at ≤ b.created_at) ∧
    (((findConversationHistory db cid (some n)).dropLast.map tokenCost).sum ≤ n) ∧
    (conversationMessages db cid ≠ [] →
      findConversationHistory db cid (some n) ≠ []) := by
  obtain ⟨m', rfl⟩ : ∃ m', n = m' + 1 := ⟨n - 1, by omega⟩
  set l := orderByCreatedAtDesc (conversationMessages db cid) with hldef
  have hr : findConversationHistory db cid (some (m' + 1)) =
      (collectHistory (m' + 1) false 0 l).reverse := by
    show findHistoryLoop (m' + 1) l 0 [] = _
    rw [findHistoryLoop_eq_collect]
    simp
  obtain ⟨k, hk⟩ := collectHistory_take (m' + 1) l false 0
  have hsorted : List.Pairwise createdDescOrder l :=
    List.sorted_insertionSort createdDescOrder (conversationMessages db cid)
  have hperm : l.Perm (conversationMessages db cid) :=
    List.perm_insertionSort createdDescOrder (conversationMessages db cid)
  refine ⟨?_, ?_, ?_, ?_⟩
  · refine ⟨(l.drop k).reverse, ?_⟩
    rw [hr, hk]
    conv_lhs => rw [← List.take_append_drop k l]
    rw [List.reverse_append]
  · rw [hr, hk, List.pairwise_reverse]
    exact List.Pairwise.sublist (List.take_sublist k l) hsorted
  · rw [hr]
    cases hl : l with
    | nil => simp [collectHistory]
    | cons hd tl =>
      rw [collectHistory_start, Nat.zero_add]
      rw [List.reverse_cons, List.dropLast_concat]
      rw [List.map_reverse, List.sum_reverse]
      by_cases hhd : tokenCost hd ≤ m' + 1
      · have := collectHistory_budget (m' + 1) tl (tokenCost hd) hhd
        omega
      · rw [collectHistory_stop (m' + 1) tl (tokenCost hd) (by omega)]
        simp
  · intro hne
    rw [hr]
    cases hl : l with
    | nil =>
      rw [hl] at hperm
      exact absurd hperm.symm.eq_nil hne
    | cons hd tl =>
      rw [collectHistory_start]
      simp

/-- Witness: a single one-token message under budget 1 satisfies the
window bound. -/
theorem findConversationHistory_budget_spec_witness :
    0 < 1 ∧
    (((findConversationHistory
        ⟨[], [⟨0, 0, Role.user, "abcd", none, none, none, 0, 0⟩], 0, 1, 1⟩
        0 (some 1)).dropLast.map tokenCost).sum ≤ 1) :=
  ⟨by decide,
    (findConversationHistory_budget_spec
      ⟨[], [⟨0, 0, Role.user, "abcd", none, none, none, 0, 0⟩], 0, 1, 1⟩
      0 1 (by decide)).2.2.1⟩

/-! ## Claim C4: retention trim -/

/-- Splitting a nodup-id message list by membership of the ids of its
first keep elements: the members are exactly those first elements, the
non-members exactly the remainder. -/
theorem filter_by_keepIds (s : List Msg) (keep : Nat)
    (h : (s.map (fun m => m.id)).Nodup) :
    s.filter (fun m => ((s.take keep).map (fun m => m.id)).contains m.id) =
      s.take keep ∧
    s.filter (fun m => !(((s.take keep).map (fun m => m.id)).contains m.id)) =
      s.drop keep := by
  have hh := h
  rw [← List.take_append_drop keep s, List.map_append] at hh
  obtain ⟨-, -, hdisj⟩ := List.nodup_append.mp hh
  have key : ∀ (t d : List Msg),
      (t.map (fun m => m.id)).Disjoint (d.map (fun m => m.id)) →
      (t ++ d).filter (fun m => (t.map (fun m => m.id)).contains m.id) = t ∧
      (t ++ d).filter (fun m => !((t.map (fun m => m.id)).contains m.id)) = d := by
    intro t d hdj
    constructor
    · rw [List.filter_append]
      have ha : t.filter (fun m => (t.map (fun m => m.id)).contains m.id) = t :=
        List.filter_eq_self.mpr (fun m hm => by
          have h1 := List.mem_map_of_mem (fun m => m.id) hm
          simp [h1])
      have hb : d.filter (fun m => (t.map (fun m => m.id)).contains m.id) = [] :=
        List.filter_eq_nil_iff.mpr (fun m hm hcont => by
          have h1 : m.id ∈ t.map (fun m => m.id) := by simpa using hcont
          exact hdj h1 (List.mem_map_of_mem _ hm))
      rw [ha, hb, List.append_nil]
    · rw [List.filter_append]
      have ha : t.filter (fun m => !((t.map (fun m => m.id)).contains m.id)) = [] :=
        List.filter_eq_nil_iff.mpr (fun m hm hcont => by
          have h1 := List.mem_map_of_mem (fun m => m.id) hm
          simp [h1] at hcont)
      have hb : d.filter (fun m => !((t.map (fun m => m.id)).contains m.id)) = d :=
        List.filter_eq_self.mpr (fun m hm => by
          have h2 : m.id ∉ t.map (fun m => m.id) :=
            fun hmem => hdj hmem (List.mem_map_of_mem _ hm)
          simp [h2])
      rw [ha, hb, List.nil_append]
  have hout := key (s.take keep) (s.drop keep) hdisj
  rwa [List.take_append_drop] at hout

/-- C4, counterexample: with one persisted message and keepCount 0 the
claim demands that 0 messages remain and 1 removal is reported, but the
code keeps the message and reports 0 removals (the empty keep-list guard
returns early without deleting). -/
theorem cleanupOldMessages_zero_keep_cex :
    ¬ ((conversationMessages
        (ConversationService.cleanupOldMessages
          ⟨[⟨0, "telegram", "42", "7", none, 0, 0, 0, 1, true⟩],
            [⟨0, 0, Role.user, "hi", none, none, none, 0, 0⟩], 1, 1, 1⟩
          0 0).1 0).length = min 0 1 ∧
      (ConversationService.cleanupOldMessages
          ⟨[⟨0, "telegram", "42", "7", none, 0, 0, 0, 1, true⟩],
            [⟨0, 0, Role.user, "hi", none, none, none, 0, 0⟩], 1, 1, 1⟩
          0 0).2 = 1 - min 0 1) := by
  intro h
  have h1 := h.1
  rw [show (conversationMessages
      (ConversationService.cleanupOldMessages
        ⟨[⟨0, "telegram", "42", "7", none, 0, 0, 0, 1, true⟩],
          [⟨0, 0, Role.user, "hi", none, none, none, 0, 0⟩], 1, 1, 1⟩
        0 0).1 0).length = 1 from rfl] at h1
  simp at h1

/-- C4 (amended): for every keepCount of at least 1, the trim leaves
exactly min(keepCount, total) messages of the conversation, reports
total minus that as removed, and every removed message is no newer than
every surviving one; with keepCount 0 nothing is deleted and 0 is
reported. -/
theorem cleanupOldMessages_spec (db : DB) (cid keep : Nat) (hk : 0 < keep)
    (hids : (db.msgs.map (fun m => m.id)).Nodup) :
    (conversationMessages (ConversationService.cleanupOldMessages db cid keep).1 cid).length
        = min keep (conversationMessages db cid).length ∧
    (ConversationService.cleanupOldMessages db cid keep).2
        = (conversationMessages db cid).length
          - min keep (conversationMessages db cid).length ∧
    (∀ m ∈ db.msgs, m.conversation_id = cid →
      m ∉ (ConversationService.cleanupOldMessages db cid keep).1.msgs →
      ∀ m2 ∈ conversationMessages
          (ConversationService.cleanupOldMessages db cid keep).1 cid,
        m.created_at ≤ m2.created_at) := by
  have hold : conversationMessages db cid =
      db.msgs.filter (fun m => m.conversation_id == cid) := rfl
  set old := conversationMessages db cid with holddef
  set s := orderByCreatedAtDesc old with hsdef
  set kIds := (s.take keep).map (fun m => m.id) with hkidsdef
  have hperm : s.Perm old := List.perm_insertionSort _ old
  have hsorted : List.Pairwise createdDescOrder s :=
    List.sorted_insertionSort _ old
  have holdids : (old.map (fun m => m.id)).Nodup := by
    rw [hold]
    exact hids.sublist ((List.filter_sublist db.msgs).map _)
  have hsids : (s.map (fun m => m.id)).Nodup :=
    ((hperm.map _).nodup_iff).mpr holdids
  obtain ⟨hkeepF, hdropF⟩ := filter_by_keepIds s keep hsids
  have hstep : ConversationService.cleanupOldMessages db cid keep =
      (if kIds = [] then (db, 0)
       else ({ db with msgs := db.msgs.filter (fun m =>
           !(m.conversation_id == cid && !(kIds.contains m.id))) },
         (db.msgs.filter (fun m =>
           m.conversation_id == cid && !(kIds.contains m.id))).length)) := by
    rfl
  by_cases hemp : old = []
  · have hs0 : s = [] := by
      rw [hemp] at hperm
      exact hperm.eq_nil
    have hk0 : kIds = [] := by simp [hkidsdef, hs0]
    rw [hstep, if_pos hk0]
    refine ⟨?_, ?_, ?_⟩
    · show old.length = min keep old.length
      rw [hemp]
      simp
    · show 0 = old.length - min keep old.length
      rw [hemp]
      simp
    · intro m hm _ hnot
      exact absurd hm hnot
  · have hk1 : kIds ≠ [] := by
      obtain ⟨k2, rfl⟩ : ∃ k2, keep = k2 + 1 := ⟨keep - 1, by omega⟩
      cases hs2 : s with
      | nil =>
        rw [hs2] at hperm
        exact absurd (hperm.symm.eq_nil) hemp
      | cons hd tl =>
        rw [hkidsdef, hs2]
        simp
    rw [hstep, if_neg hk1]
    have hconvEq : conversationMessages
        { db with msgs := db.msgs.filter (fun m =>
            !(m.conversation_id == cid && !(kIds.contains m.id))) } cid =
        old.filter (fun m => kIds.contains m.id) := by
      show (db.msgs.filter (fun m =>
          !(m.conversation_id == cid && !(kIds.contains m.id)))).filter
          (fun m => m.conversation_id == cid) =
        old.filter (fun m => kIds.contains m.id)
      rw [hold, List.filter_filter, List.filter_filter]
      apply List.filter_congr
      intro m _
      cases hA : (m.conversation_id == cid) <;>
        cases hB : kIds.contains m.id <;> simp [hA, hB]
    have hdelEq : db.msgs.filter (fun m =>
          m.conversation_id == cid && !(kIds.contains m.id)) =
        old.filter (fun m => !(kIds.contains m.id)) := by
      rw [hold, List.filter_filter]
      apply List.filter_congr
      intro m _
      cases hA : (m.conversation_id == cid) <;>
        cases hB : kIds.contains m.id <;> simp [hA, hB]
    have hkeptLen : (old.filter (fun m => kIds.contains m.id)).length =
        min keep old.length := by
      rw [hkidsdef, ← (hperm.filter _).length_eq, hkeepF, List.length_take,
        hperm.length_eq]
    have hdelLen : (old.filter (fun m => !(kIds.contains m.id))).length =
        old.length - keep := by
      rw [hkidsdef, ← (hperm.filter _).length_eq, hdropF, List.length_drop,
        hperm.length_eq]
    refine ⟨?_, ?_, ?_⟩
    · rw [hconvEq, hkeptLen]
    · show (db.msgs.filter (fun m =>
          m.conversation_id == cid && !(kIds.contains m.id))).length =
        old.length - min keep old.length
      rw [hdelEq, hdelLen]
      omega
    · intro m hm hmc hnot m2 hm2
      rw [hconvEq] at hm2
      have hmold : m ∈ old := by
        rw [hold]
        simp [hm, hmc]
      have hdoomed : (m.conversation_id == cid && !(kIds.contains m.id)) = true := by
        cases hA : (m.conversation_id == cid && !(kIds.contains m.id)) with
        | true => rfl
        | false =>
          exfalso
          apply hnot
          show m ∈ db.msgs.filter (fun m =>
            !(m.conversation_id == cid && !(kIds.contains m.id)))
          simp only [List.mem_filter]
          exact ⟨hm, by rw [hA]; rfl⟩
      have hmnotin : kIds.contains m.id = false := by
        cases hB : kIds.contains m.id with
        | false => rfl
        | true => rw [hB] at hdoomed; simp at hdoomed
      have hms : m ∈ s := hperm.mem_iff.mpr hmold
      have hmdrop : m ∈ s.drop keep := by
        have hms2 : m ∈ s.take keep ++ s.drop keep := by
          rw [List.take_append_drop]; exact hms
        rcases List.mem_append.mp hms2 with htk | hdk
        · exfalso
          have hmem : m.id ∈ kIds := by
            rw [hkidsdef]
            exact List.mem_map_of_mem _ htk
          exact absurd hmnotin (by simp [hmem])
        · exact hdk
      have hm2keep : m2 ∈ s.take keep := by
        have hfront : m2 ∈ s.filter (fun m => kIds.contains m.id) :=
          ((hperm.filter _).mem_iff).mpr hm2
        rw [hkidsdef] at hfront
        rw [hkeepF] at hfront
        exact hfront
      have hsplit2 : List.Pairwise createdDescOrder (s.take keep ++ s.drop keep) := by
        rw [List.take_append_drop]; exact hsorted
      have hpw := (List.pairwise_append.mp hsplit2).2.2
      exact hpw m2 hm2keep m hmdrop

/-- Witness: trimming a two-message conversation to its newest message. -/
theorem cleanupOldMessages_spec_witness :
    0 < 1 ∧
    (conversationMessages (ConversationService.cleanupOldMessages
        ⟨[⟨0, "telegram", "42", "7", none, 0, 0, 1, 2, true⟩],
          [⟨0, 0, Role.user, "hi", none, none, none, 0, 0⟩,
           ⟨1, 0, Role.assistant, "yo", none, none, none, 1, 1⟩], 1, 2, 2⟩
        0 1).1 0).length = min 1 2 :=
  ⟨by decide,
    by
      have h := (cleanupOldMessages_spec
        ⟨[⟨0, "telegram", "42", "7", none, 0, 0, 1, 2, true⟩],
          [⟨0, 0, Role.user, "hi", none, none, none, 0, 0⟩,
           ⟨1, 0, Role.assistant, "yo", none, none, none, 1, 1⟩], 1, 2, 2⟩
        0 1 (by decide) (by decide)).1
      rw [show (conversationMessages
          ⟨[⟨0, "telegram", "42", "7", none, 0, 0, 1, 2, true⟩],
            [⟨0, 0, Role.user, "hi", none, none, none, 0, 0⟩,
             ⟨1, 0, Role.assistant, "yo", none, none, none, 1, 1⟩], 1, 2, 2⟩
          0).length = 2 from rfl] at h
      exact h⟩

/-! ## Claim C10: getOrCreateConversation frame behaviour -/

/-- C10, counterexample: with the empty user id (falsy in JS) the user
filter is skipped, so even though an active conversation for the exact
triple exists (user id empty), the lookup returns the more recently
messaged conversation of a different user; the claim that the existing
conversation of the triple is returned fails. -/
theorem getOrCreateConversation_emptyUser_cex :
    (∃ c ∈ (⟨[⟨0, "telegram", "42", "", none, 0, 0, 0, 1, true⟩,
        ⟨1, "telegram", "42", "bob", none, 5, 5, 5, 1, true⟩], [], 2, 0, 6⟩ :
          DB).convs,
      c.platform = "telegram" ∧ c.channel_id = "42" ∧ c.user_id = "" ∧
        c.is_active = true) ∧
    (ConversationService.getOrCreateConversation
      ⟨[⟨0, "telegram", "42", "", none, 0, 0, 0, 1, true⟩,
        ⟨1, "telegram", "42", "bob", none, 5, 5, 5, 1, true⟩], [], 2, 0, 6⟩
      "telegram" "42" "" none).2.user_id = "bob" ∧
    ("bob" : String) ≠ "" := by
  refine ⟨⟨⟨0, "telegram", "42", "", none, 0, 0, 0, 1, true⟩, ?_, ?_⟩, ?_, ?_⟩
  · simp
  · exact ⟨rfl, rfl, rfl, rfl⟩
  · rfl
  · decide

/-- C10 (amended): for a non-empty user id, when active conversations
matching the (platform, channel, user) triple exist, getOrCreateConversation
returns one of them — the one whose last_message_at is greatest — leaves
the store entirely unchanged, and ignores the title argument. -/
theorem getOrCreateConversation_frame_spec (db : DB) (p ch u : String)
    (t : Option String) (hu : u ≠ "")
    (hex : ∃ c ∈ db.convs, c.platform = p ∧ c.channel_id = ch ∧
      c.user_id = u ∧ c.is_active = true) :
    (ConversationService.getOrCreateConversation db p ch u t).1 = db ∧
    ((ConversationService.getOrCreateConversation db p ch u t).2 ∈ db.convs ∧
      (ConversationService.getOrCreateConversation db p ch u t).2.platform = p ∧
      (ConversationService.getOrCreateConversation db p ch u t).2.channel_id = ch ∧
      (ConversationService.getOrCreateConversation db p ch u t).2.user_id = u ∧
      (ConversationService.getOrCreateConversation db p ch u t).2.is_active = true) ∧
    (∀ c ∈ db.convs, c.platform = p → c.channel_id = ch → c.user_id = u →
      c.is_active = true →
      c.last_message_at ≤
        (ConversationService.getOrCreateConversation db p ch u t).2.last_message_at) ∧
    (∀ t2, ConversationService.getOrCreateConversation db p ch u t2 =
      ConversationService.getOrCreateConversation db p ch u t) := by
  set fl := db.convs.filter (fun c =>
    c.platform == p && c.channel_id == ch
      && (u == "" || c.user_id == u) && c.is_active) with hfl
  obtain ⟨w, hw, hwp, hwc, hwu, hwa⟩ := hex
  have hwin : w ∈ fl := by
    rw [hfl]
    simp [List.mem_filter, hw, hwp, hwc, hwu, hwa]
  set sorted := List.insertionSort lastMessageDescOrder fl with hsorteddef
  have hperm : sorted.Perm fl := List.perm_insertionSort _ fl
  have hpw : List.Pairwise lastMessageDescOrder sorted :=
    List.sorted_insertionSort _ fl
  cases hs : sorted with
  | nil =>
    exfalso
    rw [hs] at hperm
    rw [hperm.symm.eq_nil] at hwin
    exact absurd hwin (List.not_mem_nil w)
  | cons c0 rest =>
    have hfind : ConversationModel.findByPlatformAndChannel db p ch u = some c0 := by
      show sorted.head? = some c0
      rw [hs]
      rfl
    have hget : ∀ t2, ConversationService.getOrCreateConversation db p ch u t2 =
        (db, c0) := by
      intro t2
      unfold ConversationService.getOrCreateConversation
      rw [hfind]
    have hc0fl : c0 ∈ fl := by
      have : c0 ∈ sorted := by rw [hs]; exact List.mem_cons_self c0 rest
      exact hperm.mem_iff.mp this
    have hc0 : c0 ∈ db.convs ∧ c0.platform = p ∧ c0.channel_id = ch ∧
        c0.user_id = u ∧ c0.is_active = true := by
      rw [hfl] at hc0fl
      have hmem := (List.mem_filter.mp hc0fl).1
      have hpred := (List.mem_filter.mp hc0fl).2
      simp only [Bool.and_eq_true, Bool.or_eq_true, beq_iff_eq] at hpred
      obtain ⟨⟨⟨hp2, hc2⟩, hu2⟩, ha2⟩ := hpred
      refine ⟨hmem, hp2, hc2, ?_, ha2⟩
      rcases hu2 with hu2 | hu2
      · exact absurd hu2 hu
      · exact hu2
    have hmax : ∀ c ∈ db.convs, c.platform = p → c.channel_id = ch →
        c.user_id = u → c.is_active = true →
        c.last_message_at ≤ c0.last_message_at := by
      intro c hc hcp hcc hcu hca
      have hcfl : c ∈ fl := by
        rw [hfl]
        simp [List.mem_filter, hc, hcp, hcc, hcu, hca]
      have hcsorted : c ∈ sorted := hperm.mem_iff.mpr hcfl
      rw [hs] at hcsorted
      rcases List.mem_cons.mp hcsorted with rfl | hcr
      · exact Nat.le_refl _
      · rw [hs] at hpw
        exact (List.pairwise_cons.mp hpw).1 c hcr
    rw [hget t]
    exact ⟨rfl, ⟨hc0.1, hc0.2.1, hc0.2.2.1, hc0.2.2.2.1, hc0.2.2.2.2⟩,
      hmax, fun t2 => hget t2⟩

/-- Witness: a store holding one active matching conversation. -/
theorem getOrCreateConversation_frame_spec_witness :
    ("7" : String) ≠ "" ∧
    (ConversationService.getOrCreateConversation
      ⟨[⟨0, "telegram", "42", "7", none, 0, 0, 3, 1, true⟩], [], 1, 0, 4⟩
      "telegram" "42" "7" (some "ignored")).1 =
      ⟨[⟨0, "telegram", "42", "7", none, 0, 0, 3, 1, true⟩], [], 1, 0, 4⟩ :=
  ⟨by decide,
    (getOrCreateConversation_frame_spec
      ⟨[⟨0, "telegram", "42", "7", none, 0, 0, 3, 1, true⟩], [], 1, 0, 4⟩
      "telegram" "42" "7" (some "ignored") (by decide)
      ⟨⟨0, "telegram", "42", "7", none, 0, 0, 3, 1, true⟩, by simp,
        rfl, rfl, rfl, rfl⟩).1⟩

/-! ## Claim C3: message_count / last_message_at invariant -/

/-- The claimed invariant: each conversation's message_count equals the
number of persisted messages carrying its id, every such message is no
newer than last_message_at, and when messages exist one attains
last_message_at (so last_message_at is the newest created_at). -/
def countLastInv (db : DB) : Prop :=
  ∀ c ∈ db.convs,
    c.message_count = (conversationMessages db c.id).length ∧
    (∀ m ∈ conversationMessages db c.id, m.created_at ≤ c.last_message_at) ∧
    (conversationMessages db c.id ≠ [] →
      ∃ m ∈ conversationMessages db c.id, m.created_at = c.last_message_at)

/-- Bookkeeping: ids stay below the generators and all row times are in
the past of the clock. -/
def clockInv (db : DB) : Prop :=
  (∀ c ∈ db.convs, c.id < db.nextConvId ∧ c.last_message_at < db.now) ∧
  (∀ m ∈ db.msgs, m.conversation_id < db.nextConvId ∧ m.created_at < db.now)

def storeInv (db : DB) : Prop := clockInv db ∧ countLastInv db

def StoreOp.isCleanup : StoreOp → Bool
  | StoreOp.cleanupOldMessages _ _ => true
  | _ => false

/-- Shape of a successful service-level addMessage: the message row is
appended and the owning conversation rows are bumped. -/
theorem addMessage_shape_pos (db : DB) (cid : Nat) (role : Role)
    (content : String) (opts : MsgOptions)
    (hex : db.convs.any (fun c => c.id == cid) = true) :
    ConversationService.addMessage db cid role content opts =
      ({ db with
          convs := db.convs.map (ConversationModel.bumpConv cid db.now),
          msgs := db.msgs ++ [⟨db.nextMsgId, cid, role, content,
            opts.platform_message_id, opts.token_count, opts.ai_provider,
            db.now, db.now⟩],
          nextMsgId := db.nextMsgId + 1 },
        some ⟨db.nextMsgId, cid, role, content, opts.platform_message_id,
          opts.token_count, opts.ai_provider, db.now, db.now⟩) := by
  unfold ConversationService.addMessage MessageModel.create
    ConversationModel.incrementMessageCount
  rw [if_pos hex]

/-- Shape of a rejected addMessage (missing conversation, the foreign key
fails): the store is unchanged. -/
theorem addMessage_shape_neg (db : DB) (cid : Nat) (role : Role)
    (content : String) (opts : MsgOptions)
    (hex : ¬ db.convs.any (fun c => c.id == cid) = true) :
    ConversationService.addMessage db cid role content opts = (db, none) := by
  unfold ConversationService.addMessage MessageModel.create
  rw [if_neg hex]

/-- addMessage never touches the clock. -/
theorem addMessage_now (db : DB) (cid : Nat) (role : Role) (content : String)
    (opts : MsgOptions) :
    (ConversationService.addMessage db cid role content opts).1.now = db.now := by
  by_cases hex : db.convs.any (fun c => c.id == cid) = true
  · rw [addMessage_shape_pos db cid role content opts hex]
  · rw [addMessage_shape_neg db cid role content opts hex]

theorem bumpConv_id (cid t : Nat) (c : Conv) :
    (ConversationModel.bumpConv cid t c).id = c.id := by
  unfold ConversationModel.bumpConv
  split <;> rfl

theorem bumpConv_pos (cid t : Nat) (c : Conv) (h : c.id = cid) :
    ConversationModel.bumpConv cid t c =
      { c with message_count := c.message_count + 1
               last_message_at := t
               updated_at := t } := by
  unfold ConversationModel.bumpConv
  rw [if_pos (by simp [h])]

theorem bumpConv_neg (cid t : Nat) (c : Conv) (h : ¬ c.id = cid) :
    ConversationModel.bumpConv cid t c = c := by
  unfold ConversationModel.bumpConv
  rw [if_neg (by simp [h])]

/-- Filtering a one-message list by owning conversation. -/
theorem filter_single_conv (x : Nat) (m : Msg) :
    [m].filter (fun m2 => m2.conversation_id == x) =
      if m.conversation_id = x then [m] else [] := by
  by_cases h : m.conversation_id = x
  · rw [if_pos h]
    have hb : (m.conversation_id == x) = true := by simp [h]
    simp [List.filter, hb]
  · rw [if_neg h]
    have hb : (m.conversation_id == x) = false := by simp [h]
    simp [List.filter, hb]

/-- Core preservation: from a state whose conversation times are at most
now, message times strictly before now, ids below the generators, and
satisfying the count / last invariant, a service addMessage followed by
the clock tick restores the full invariant. -/
theorem insertion_preserves (db : DB) (cid : Nat) (role : Role)
    (content : String) (opts : MsgOptions)
    (h1 : ∀ c ∈ db.convs, c.id < db.nextConvId)
    (h2 : ∀ m ∈ db.msgs, m.conversation_id < db.nextConvId ∧ m.created_at < db.now)
    (h3 : countLastInv db)
    (h4 : ∀ c ∈ db.convs, c.last_message_at ≤ db.now) :
    storeInv { (ConversationService.addMessage db cid role content opts).1 with
      now := db.now + 1 } := by
  by_cases hex : db.convs.any (fun c => c.id == cid) = true
  · rw [addMessage_shape_pos db cid role content opts hex]
    show storeInv
      { convs := db.convs.map (ConversationModel.bumpConv cid db.now)
        msgs := db.msgs ++ [⟨db.nextMsgId, cid, role, content,
          opts.platform_message_id, opts.token_count, opts.ai_provider,
          db.now, db.now⟩]
        nextConvId := db.nextConvId
        nextMsgId := db.nextMsgId + 1
        now := db.now + 1 }
    have hcid : cid < db.nextConvId := by
      rw [List.any_eq_true] at hex
      obtain ⟨c, hc, hcc⟩ := hex
      rw [beq_iff_eq] at hcc
      rw [← hcc]
      exact h1 c hc
    have hmem0 : ∀ x : Nat,
        conversationMessages
          { convs := db.convs.map (ConversationModel.bumpConv cid db.now)
            msgs := db.msgs ++ [⟨db.nextMsgId, cid, role, content,
              opts.platform_message_id, opts.token_count, opts.ai_provider,
              db.now, db.now⟩]
            nextConvId := db.nextConvId
            nextMsgId := db.nextMsgId + 1
            now := db.now + 1 } x =
        conversationMessages db x ++
          (if cid = x then [⟨db.nextMsgId, cid, role, content,
            opts.platform_message_id, opts.token_count, opts.ai_provider,
            db.now, db.now⟩] else []) := by
      intro x
      show (db.msgs ++ [(⟨db.nextMsgId, cid, role, content,
          opts.platform_message_id, opts.token_count, opts.ai_provider,
          db.now, db.now⟩ : Msg)]).filter (fun m => m.conversation_id == x) = _
      rw [List.filter_append, filter_single_conv]
      rfl
    constructor
    · constructor
      · intro c' hc'
        obtain ⟨c, hc, rfl⟩ := List.mem_map.mp hc'
        refine ⟨?_, ?_⟩
        · rw [bumpConv_id]
          exact h1 c hc
        · by_cases hcc : c.id = cid
          · rw [bumpConv_pos cid db.now c hcc]
            exact Nat.lt_succ_self _
          · rw [bumpConv_neg cid db.now c hcc]
            exact Nat.lt_succ_of_le (h4 c hc)
      · intro m hm
        rcases List.mem_append.mp hm with hold | hnew
        · exact ⟨(h2 m hold).1, Nat.lt_succ_of_lt (h2 m hold).2⟩
        · rw [List.eq_of_mem_singleton hnew]
          exact ⟨hcid, Nat.lt_succ_self _⟩
    · intro c' hc'
      obtain ⟨c, hc, rfl⟩ := List.mem_map.mp hc'
      have hcm := h3 c hc
      by_cases hcc : c.id = cid
      · rw [bumpConv_pos cid db.now c hcc]
        have hid : ({ c with message_count := c.message_count + 1
                             last_message_at := db.now
                             updated_at := db.now } : Conv).id = c.id := rfl
        rw [hid, hmem0 c.id, if_pos hcc.symm]
        refine ⟨?_, ?_, ?_⟩
        · show c.message_count + 1 = _
          rw [List.length_append, hcm.1]
          rfl
        · intro m hm
          rcases List.mem_append.mp hm with hold | hnew
          · show m.created_at ≤ db.now
            exact Nat.le_of_lt (h2 m (List.mem_filter.mp hold).1).2
          · rw [List.eq_of_mem_singleton hnew]
        · intro _
          refine ⟨⟨db.nextMsgId, cid, role, content,
            opts.platform_message_id, opts.token_count, opts.ai_provider,
            db.now, db.now⟩, ?_, rfl⟩
          exact List.mem_append.mpr (Or.inr (List.mem_singleton_self _))
      · rw [bumpConv_neg cid db.now c hcc]
        rw [hmem0 c.id, if_neg (fun h => hcc h.symm), List.append_nil]
        exact hcm
  · rw [addMessage_shape_neg db cid role content opts hex]
    refine ⟨⟨?_, ?_⟩, ?_⟩
    · intro c hc
      exact ⟨h1 c hc, Nat.lt_succ_of_le (h4 c hc)⟩
    · intro m hm
      exact ⟨(h2 m hm).1, Nat.lt_succ_of_lt (h2 m hm).2⟩
    · exact h3

theorem setInactive_id (cid t : Nat) (c : Conv) :
    (ConversationModel.setInactive cid t c).id = c.id := by
  unfold ConversationModel.setInactive
  split <;> rfl

theorem setInactive_count (cid t : Nat) (c : Conv) :
    (ConversationModel.setInactive cid t c).message_count = c.message_count := by
  unfold ConversationModel.setInactive
  split <;> rfl

theorem setInactive_last (cid t : Nat) (c : Conv) :
    (ConversationModel.setInactive cid t c).last_message_at =
      c.last_message_at := by
  unfold ConversationModel.setInactive
  split <;> rfl

/-- No message row references the fresh conversation id. -/
theorem filter_nextConvId_nil (db : DB)
    (hm : ∀ m ∈ db.msgs, m.conversation_id < db.nextConvId) :
    db.msgs.filter (fun m => m.conversation_id == db.nextConvId) = [] := by
  rw [List.filter_eq_nil_iff]
  intro m hmm hbe
  rw [beq_iff_eq] at hbe
  have := hm m hmm
  omega

/-- After a create, the preconditions of the insertion lemma still hold at
the same clock value. -/
theorem create_pre (db : DB) (p ch u : String) (ti : Option String)
    (h : storeInv db) :
    (∀ c ∈ (ConversationModel.create db p ch u ti).1.convs,
        c.id < (ConversationModel.create db p ch u ti).1.nextConvId) ∧
    (∀ m ∈ (ConversationModel.create db p ch u ti).1.msgs,
        m.conversation_id < (ConversationModel.create db p ch u ti).1.nextConvId ∧
        m.created_at < (ConversationModel.create db p ch u ti).1.now) ∧
    countLastInv (ConversationModel.create db p ch u ti).1 ∧
    (∀ c ∈ (ConversationModel.create db p ch u ti).1.convs,
        c.last_message_at ≤ (ConversationModel.create db p ch u ti).1.now) := by
  obtain ⟨⟨hc, hm⟩, hcount⟩ := h
  have hnil : db.msgs.filter (fun m => m.conversation_id == db.nextConvId) = [] :=
    filter_nextConvId_nil db (fun m hmm => (hm m hmm).1)
  refine ⟨?_, ?_, ?_, ?_⟩
  · intro c hcc
    rcases List.mem_append.mp hcc with h2 | h2
    · exact Nat.lt_succ_of_lt (hc c h2).1
    · rw [List.eq_of_mem_singleton h2]
      exact Nat.lt_succ_self _
  · intro m hmm
    exact ⟨Nat.lt_succ_of_lt (hm m hmm).1, (hm m hmm).2⟩
  · intro c hcc
    rcases List.mem_append.mp hcc with h2 | h2
    · exact hcount c h2
    · rw [List.eq_of_mem_singleton h2]
      refine ⟨?_, ?_, ?_⟩
      · show (0 : Nat) =
          (db.msgs.filter (fun m => m.conversation_id == db.nextConvId)).length
        rw [hnil]
        rfl
      · intro m hmm2
        have hmm3 : m ∈ db.msgs.filter
            (fun m => m.conversation_id == db.nextConvId) := hmm2
        rw [hnil] at hmm3
        exact absurd hmm3 (List.not_mem_nil m)
      · intro hne
        exfalso
        apply hne
        show db.msgs.filter (fun m => m.conversation_id == db.nextConvId) = []
        exact hnil
  · intro c hcc
    rcases List.mem_append.mp hcc with h2 | h2
    · exact Nat.le_of_lt (hc c h2).2
    · rw [List.eq_of_mem_singleton h2]
      exact Nat.le_refl _

/-- getOrCreateConversation when the lookup finds a conversation. -/
theorem getOrCreate_found (db : DB) (p ch u : String) (ti : Option String)
    (c0 : Conv)
    (hf : ConversationModel.findByPlatformAndChannel db p ch u = some c0) :
    ConversationService.getOrCreateConversation db p ch u ti = (db, c0) := by
  unfold ConversationService.getOrCreateConversation
  rw [hf]

/-- getOrCreateConversation with no title when the lookup misses. -/
theorem getOrCreate_notfound (db : DB) (p ch u : String)
    (hf : ConversationModel.findByPlatformAndChannel db p ch u = none) :
    ConversationService.getOrCreateConversation db p ch u none =
      ConversationModel.create db p ch u none := by
  unfold ConversationService.getOrCreateConversation
  rw [hf]

/-- A found conversation is a row of the store. -/
theorem find_mem (db : DB) (p ch u : String) (c0 : Conv)
    (hf : ConversationModel.findByPlatformAndChannel db p ch u = some c0) :
    c0 ∈ db.convs := by
  unfold ConversationModel.findByPlatformAndChannel at hf
  have h0 : c0 ∈ (List.insertionSort lastMessageDescOrder
      (db.convs.filter (fun c =>
        c.platform == p && c.channel_id == ch
          && (u == "" || c.user_id == u) && c.is_active))).head? :=
    Option.mem_def.mpr hf
  have h1 := List.mem_of_mem_head? h0
  have h2 := (List.perm_insertionSort lastMessageDescOrder _).mem_iff.mp h1
  exact (List.mem_filter.mp h2).1

/-- Every non-cleanup store operation preserves the invariant. -/
theorem applyOp_preserves (db : DB) (op : StoreOp)
    (hcl : op.isCleanup = false) (h : storeInv db) :
    storeInv (applyOp db op) := by
  obtain ⟨⟨hc, hm2⟩, hcount⟩ := h
  cases op with
  | addMessage cid role content opts =>
    show storeInv
      { (ConversationService.addMessage db cid role content opts).1 with
        now := (ConversationService.addMessage db cid role content opts).1.now + 1 }
    rw [addMessage_now]
    exact insertion_preserves db cid role content opts
      (fun c hcc => (hc c hcc).1) hm2 hcount
      (fun c hcc => Nat.le_of_lt (hc c hcc).2)
  | addAssistantMessage cid content opts =>
    show storeInv
      { (ConversationService.addMessage db cid Role.assistant content opts).1 with
        now := (ConversationService.addMessage db cid Role.assistant content opts).1.now + 1 }
    rw [addMessage_now]
    exact insertion_preserves db cid Role.assistant content opts
      (fun c hcc => (hc c hcc).1) hm2 hcount
      (fun c hcc => Nat.le_of_lt (hc c hcc).2)
  | addUserMessage p ch u content pmid =>
    cases hf : ConversationModel.findByPlatformAndChannel db p ch u with
    | some c0 =>
      have hshape : (ConversationService.addUserMessage db p ch u content pmid).1 =
          (ConversationService.addMessage db c0.id Role.user content
            ⟨pmid, none, none⟩).1 := by
        unfold ConversationService.addUserMessage
        rw [getOrCreate_found db p ch u none c0 hf]
      show storeInv
        { (ConversationService.addUserMessage db p ch u content pmid).1 with
          now := (ConversationService.addUserMessage db p ch u content pmid).1.now + 1 }
      rw [hshape, addMessage_now]
      exact insertion_preserves db c0.id Role.user content ⟨pmid, none, none⟩
        (fun c hcc => (hc c hcc).1) hm2 hcount
        (fun c hcc => Nat.le_of_lt (hc c hcc).2)
    | none =>
      have hshape : (ConversationService.addUserMessage db p ch u content pmid).1 =
          (ConversationService.addMessage (ConversationModel.create db p ch u none).1
            (ConversationModel.create db p ch u none).2.id Role.user content
            ⟨pmid, none, none⟩).1 := by
        unfold ConversationService.addUserMessage
        rw [getOrCreate_notfound db p ch u hf]
      obtain ⟨p1, p2, p3, p4⟩ := create_pre db p ch u none ⟨⟨hc, hm2⟩, hcount⟩
      show storeInv
        { (ConversationService.addUserMessage db p ch u content pmid).1 with
          now := (ConversationService.addUserMessage db p ch u content pmid).1.now + 1 }
      rw [hshape, addMessage_now]
      exact insertion_preserves (ConversationModel.create db p ch u none).1
        (ConversationModel.create db p ch u none).2.id Role.user content
        ⟨pmid, none, none⟩ p1 p2 p3 p4
  | cleanupOldMessages cid keep =>
    simp [StoreOp.isCleanup] at hcl
  | deactivateConversation cid =>
    show storeInv
      { (ConversationService.deactivateConversation db cid) with
        now := (ConversationService.deactivateConversation db cid).now + 1 }
    refine ⟨⟨?_, ?_⟩, ?_⟩
    · intro c' hc'
      obtain ⟨c, hc3, rfl⟩ := List.mem_map.mp hc'
      rw [setInactive_id, setInactive_last]
      exact ⟨(hc c hc3).1, Nat.lt_succ_of_lt (hc c hc3).2⟩
    · intro m hm3
      exact ⟨(hm2 m hm3).1, Nat.lt_succ_of_lt (hm2 m hm3).2⟩
    · intro c' hc'
      obtain ⟨c, hc3, rfl⟩ := List.mem_map.mp hc'
      rw [setInactive_id, setInactive_count, setInactive_last]
      exact hcount c hc3

/-- The empty store satisfies the invariant. -/
theorem storeInv_empty : storeInv DB.empty := by
  refine ⟨⟨?_, ?_⟩, ?_⟩ <;> intro x hx <;> exact absurd hx (List.not_mem_nil x)

/-- Running cleanup-free operations from an invariant state keeps it. -/
theorem storeInv_runOps (ops : List StoreOp) :
    ∀ db : DB, storeInv db → (∀ op ∈ ops, op.isCleanup = false) →
      storeInv (runOps db ops) := by
  induction ops with
  | nil => exact fun db h _ => h
  | cons op rest ih =>
    intro db h hops
    have h1 := applyOp_preserves db op (hops op (List.mem_cons_self op rest)) h
    exact ih (applyOp db op) h1
      (fun op2 hop2 => hops op2 (List.mem_cons_of_mem op hop2))

/-- C3, counterexample: two added messages then a cleanup keeping one;
deleteOldMessages removes a row without decrementing message_count, so the
conversation reports 2 while only 1 message is persisted. -/
theorem messageCount_cleanup_cex :
    ∃ c ∈ (runOps DB.empty
      [StoreOp.addUserMessage "telegram" "42" "7" "hi" none,
       StoreOp.addUserMessage "telegram" "42" "7" "again" none,
       StoreOp.cleanupOldMessages 0 1]).convs,
      c.message_count ≠
        (conversationMessages (runOps DB.empty
          [StoreOp.addUserMessage "telegram" "42" "7" "hi" none,
           StoreOp.addUserMessage "telegram" "42" "7" "again" none,
           StoreOp.cleanupOldMessages 0 1]) c.id).length := by
  decide

/-- C3 (amended): after every sequence of addMessage / addUserMessage /
addAssistantMessage / deactivateConversation operations on an initially
empty store, every conversation's message_count equals the number of its
persisted messages, and when messages exist, last_message_at is the
created_at of the most recently created one; cleanupOldMessages is
excluded because deleting messages leaves message_count untouched. -/
theorem store_invariant_no_cleanup (ops : List StoreOp)
    (hops : ∀ op ∈ ops, op.isCleanup = false) :
    ∀ c ∈ (runOps DB.empty ops).convs,
      c.message_count =
        (conversationMessages (runOps DB.empty ops) c.id).length ∧
      (∀ m ∈ conversationMessages (runOps DB.empty ops) c.id,
        m.created_at ≤ c.last_message_at) ∧
      (conversationMessages (runOps DB.empty ops) c.id ≠ [] →
        ∃ m ∈ conversationMessages (runOps DB.empty ops) c.id,
          m.created_at = c.last_message_at) :=
  (storeInv_runOps ops DB.empty storeInv_empty hops).2

/-- Witness: a single user message keeps count and last time consistent. -/
theorem store_invariant_no_cleanup_witness :
    (∀ op ∈ ([StoreOp.addUserMessage "telegram" "42" "7" "hi" none] :
        List StoreOp), op.isCleanup = false) ∧
    (∀ c ∈ (runOps DB.empty
        [StoreOp.addUserMessage "telegram" "42" "7" "hi" none]).convs,
      c.message_count =
        (conversationMessages (runOps DB.empty
          [StoreOp.addUserMessage "telegram" "42" "7" "hi" none]) c.id).length ∧
      (∀ m ∈ conversationMessages (runOps DB.empty
          [StoreOp.addUserMessage "telegram" "42" "7" "hi" none]) c.id,
        m.created_at ≤ c.last_message_at) ∧
      (conversationMessages (runOps DB.empty
          [StoreOp.addUserMessage "telegram" "42" "7" "hi" none]) c.id ≠ [] →
        ∃ m ∈ conversationMessages (runOps DB.empty
          [StoreOp.addUserMessage "telegram" "42" "7" "hi" none]) c.id,
          m.created_at = c.last_message_at)) :=
  ⟨by decide,
    store_invariant_no_cleanup
      [StoreOp.addUserMessage "telegram" "42" "7" "hi" none] (by decide)⟩

end LlmChatbot
